import Mathlib

/-!
Verification of the blackbody / Planckian-radiator module of the colour
library (`colour/colorimetry/blackbody.py`), together with the spectral
distribution constructor `sd_blackbody` built on top of it.

The Python module computes with IEEE-754 doubles and numpy arrays; the
embedding models the numbers as real numbers and numpy arrays as lists of
real numbers, keeping the structure of the source expressions (integer
powers become `zpow`, `np.exp` becomes `Real.exp`, `np.pi` becomes
`Real.pi`, numpy elementwise broadcasting becomes `map` / `zipWith`).
-/

namespace Colour

/-- Radiation constant `C1 = 3.741771e-16` from the source
(`2 * math.pi * PLANCK_CONSTANT * LIGHT_SPEED ** 2`). -/
noncomputable def C1 : ℝ := 3.741771e-16

/-- Radiation constant `C2 = 1.4388e-2` from the source
(`PLANCK_CONSTANT * LIGHT_SPEED / BOLTZMANN_CONSTANT`). -/
noncomputable def C2 : ℝ := 1.4388e-2

/-- Default medium index of refraction `N = 1` from the source. -/
noncomputable def N : ℝ := 1

/-- Scalar semantics of `planck_law` from the source:
`p = ((c1 * n ** -2 * l ** -5) / np.pi) * (np.exp(c2 / (n * l * t)) - 1) ** -1`. -/
noncomputable def planck_law (wavelength temperature c1 c2 n : ℝ) : ℝ :=
  c1 * n ^ (-2 : ℤ) * wavelength ^ (-5 : ℤ) / Real.pi *
    (Real.exp (c2 / (n * wavelength * temperature)) - 1) ^ (-1 : ℤ)

/-- The source binds `blackbody_spectral_radiance = planck_law` (an alias). -/
noncomputable def blackbody_spectral_radiance : ℝ → ℝ → ℝ → ℝ → ℝ → ℝ :=
  planck_law

/-- The formula as the spec writes it:
`radiance = (c1 * n⁻² * λ⁻⁵ / π) * (exp(c2 / (n * λ * T)) − 1)⁻¹`. -/
noncomputable def planck_law_spec_formula (wavelength temperature c1 c2 n : ℝ) : ℝ :=
  c1 * (n ^ 2)⁻¹ * (wavelength ^ 5)⁻¹ / Real.pi *
    (Real.exp (c2 / (n * wavelength * temperature)) - 1)⁻¹

/-- Claim C1: for every wavelength, temperature and constants `c1`, `c2`, `n`,
`planck_law` returns exactly `(c1 * n⁻² * λ⁻⁵ / π) * (exp(c2 / (n * λ * T)) − 1)⁻¹`. -/
theorem planck_law_eq_spec_formula (wavelength temperature c1 c2 n : ℝ) :
    planck_law wavelength temperature c1 c2 n =
      planck_law_spec_formula wavelength temperature c1 c2 n := by
  unfold planck_law planck_law_spec_formula
  rw [show ((-2 : ℤ) = -(2 : ℕ)) from rfl, show ((-5 : ℤ) = -(5 : ℕ)) from rfl,
    show ((-1 : ℤ) = -(1 : ℕ)) from rfl]
  rw [zpow_neg, zpow_neg, zpow_neg, zpow_natCast, zpow_natCast, zpow_natCast, pow_one]

/-- Claim C4: for positive wavelength and temperature, `planck_law` with the
default constants `C1`, `C2`, `N = 1` returns a strictly positive radiance. -/
theorem planck_law_pos (wavelength temperature : ℝ)
    (hw : 0 < wavelength) (ht : 0 < temperature) :
    0 < planck_law wavelength temperature C1 C2 N := by
  unfold planck_law
  have hC1 : (0 : ℝ) < C1 := by unfold C1; norm_num
  have hC2 : (0 : ℝ) < C2 := by unfold C2; norm_num
  have hN : (0 : ℝ) < N := by unfold N; norm_num
  have harg : 0 < C2 / (N * wavelength * temperature) :=
    div_pos hC2 (mul_pos (mul_pos hN hw) ht)
  have hexp : 1 < Real.exp (C2 / (N * wavelength * temperature)) := by
    have := Real.add_one_lt_exp (ne_of_gt harg)
    linarith
  exact mul_pos
    (div_pos (mul_pos (mul_pos hC1 (zpow_pos hN _)) (zpow_pos hw _)) Real.pi_pos)
    (zpow_pos (sub_pos.2 hexp) _)

/-- Concrete instantiation of `planck_law_pos` at wavelength 1, temperature 1. -/
theorem planck_law_pos_witness :
    (0 : ℝ) < 1 ∧ (0 : ℝ) < 1 ∧ 0 < planck_law 1 1 C1 C2 N :=
  ⟨one_pos, one_pos, planck_law_pos 1 1 one_pos one_pos⟩

/-- Claim C10: `blackbody_spectral_radiance` is extensionally equal to
`planck_law` at every argument tuple. -/
theorem blackbody_spectral_radiance_eq_planck_law
    (wavelength temperature c1 c2 n : ℝ) :
    blackbody_spectral_radiance wavelength temperature c1 c2 n =
      planck_law wavelength temperature c1 c2 n := rfl

/-- A numpy value: either a scalar or a one-dimensional array, modelled as a
real number or a list of real numbers. -/
inductive NPValue : Type
  | scalar : ℝ → NPValue
  | array : List ℝ → NPValue

/-- Elementwise unary numpy operation (e.g. `np.exp`). -/
def NPValue.map1 (f : ℝ → ℝ) : NPValue → NPValue
  | .scalar x => .scalar (f x)
  | .array xs => .array (xs.map f)

/-- Elementwise binary numpy operation with scalar broadcasting: scalars
combine pointwise with every element of an array; two arrays combine
positionwise (numpy requires matching shapes; for the embedding `zipWith`
truncates, and matching lengths are assumed in the theorems). -/
def NPValue.map2 (f : ℝ → ℝ → ℝ) : NPValue → NPValue → NPValue
  | .scalar x, .scalar y => .scalar (f x y)
  | .scalar x, .array ys => .array (ys.map (fun y => f x y))
  | .array xs, .scalar y => .array (xs.map (fun x => f x y))
  | .array xs, .array ys => .array (List.zipWith f xs ys)

/-- numpy elementwise multiplication. -/
noncomputable def NPValue.mul : NPValue → NPValue → NPValue :=
  NPValue.map2 (· * ·)

/-- numpy elementwise division. -/
noncomputable def NPValue.div : NPValue → NPValue → NPValue :=
  NPValue.map2 (· / ·)

/-- numpy elementwise subtraction. -/
noncomputable def NPValue.sub : NPValue → NPValue → NPValue :=
  NPValue.map2 (· - ·)

/-- numpy elementwise integer power (`** -2`, `** -5`, `** -1`). -/
noncomputable def NPValue.zpow (v : NPValue) (k : ℤ) : NPValue :=
  v.map1 (· ^ k)

/-- numpy elementwise exponential (`np.exp`). -/
noncomputable def NPValue.exp (v : NPValue) : NPValue :=
  v.map1 Real.exp

/-- The list of elements of a numpy value (a scalar is a 0-dimensional
array holding one element). -/
def NPValue.toList : NPValue → List ℝ
  | .scalar x => [x]
  | .array xs => xs

/-- The numpy expression computed by `planck_law` in the source, with
array-valued wavelength and temperature and scalar constants:
`((c1 * n ** -2 * l ** -5) / np.pi) * (np.exp(c2 / (n * l * t)) - 1) ** -1`. -/
noncomputable def planck_law_np (wavelength temperature : NPValue)
    (c1 c2 n : ℝ) : NPValue :=
  NPValue.mul
    (NPValue.div
      (NPValue.mul
        (NPValue.mul (NPValue.scalar c1) (NPValue.zpow (NPValue.scalar n) (-2)))
        (NPValue.zpow wavelength (-5)))
      (NPValue.scalar Real.pi))
    (NPValue.zpow
      (NPValue.sub
        (NPValue.exp
          (NPValue.div (NPValue.scalar c2)
            (NPValue.mul (NPValue.mul (NPValue.scalar n) wavelength) temperature)))
        (NPValue.scalar 1))
      (-1))

/-- On an array wavelength and a scalar temperature, the numpy expression
broadcasts into the scalar formula mapped over the array. -/
theorem planck_law_np_array_scalar (ls : List ℝ) (t c1 c2 n : ℝ) :
    planck_law_np (.array ls) (.scalar t) c1 c2 n =
      .array (ls.map (fun l => planck_law l t c1 c2 n)) := by
  induction ls with
  | nil => rfl
  | cons x xs ih =>
    simp only [planck_law_np, NPValue.mul, NPValue.div, NPValue.sub, NPValue.zpow,
      NPValue.exp, NPValue.map1, NPValue.map2, List.map_cons, List.zipWith_cons_cons,
      List.map_map] at ih ⊢
    simp_all [planck_law]

/-- On two array inputs of the same length, the numpy expression broadcasts
into the scalar formula zipped over corresponding element pairs. -/
theorem planck_law_np_array_array (ls ts : List ℝ) (c1 c2 n : ℝ)
    (h : ls.length = ts.length) :
    planck_law_np (.array ls) (.array ts) c1 c2 n =
      .array (List.zipWith (fun l t => planck_law l t c1 c2 n) ls ts) := by
  induction ls generalizing ts with
  | nil =>
    cases ts with
    | nil => rfl
    | cons y ys => simp at h
  | cons x xs ih =>
    cases ts with
    | nil => simp at h
    | cons y ys =>
      have h' : xs.length = ys.length := by simpa using h
      have := ih ys h'
      simp only [planck_law_np, NPValue.mul, NPValue.div, NPValue.sub, NPValue.zpow,
        NPValue.exp, NPValue.map1, NPValue.map2, List.map_cons, List.zipWith_cons_cons,
        List.map_map, NPValue.array.injEq, List.cons.injEq] at this ⊢
      exact ⟨rfl, this⟩

/-- On a scalar wavelength and an array temperature, the numpy expression
broadcasts into the scalar formula mapped over the temperature array. -/
theorem planck_law_np_scalar_array (l : ℝ) (ts : List ℝ) (c1 c2 n : ℝ) :
    planck_law_np (.scalar l) (.array ts) c1 c2 n =
      .array (ts.map (fun t => planck_law l t c1 c2 n)) := by
  induction ts with
  | nil => rfl
  | cons y ys ih =>
    simp only [planck_law_np, NPValue.mul, NPValue.div, NPValue.sub, NPValue.zpow,
      NPValue.exp, NPValue.map1, NPValue.map2, List.map_cons, List.zipWith_cons_cons,
      List.map_map] at ih ⊢
    simp_all [planck_law]

/-- Claim C6: `planck_law` broadcasts elementwise over array-valued
wavelength and/or temperature: on an array wavelength with a scalar
temperature the result maps the scalar formula over the wavelengths, on a
scalar wavelength with an array temperature it maps the scalar formula
over the temperatures, and on two arrays of matching length it applies the
scalar formula to corresponding element pairs. -/
theorem planck_law_broadcasts (ls ts : List ℝ) (l t c1 c2 n : ℝ) :
    planck_law_np (.array ls) (.scalar t) c1 c2 n =
        .array (ls.map (fun l' => planck_law l' t c1 c2 n)) ∧
      planck_law_np (.scalar l) (.array ts) c1 c2 n =
        .array (ts.map (fun t' => planck_law l t' c1 c2 n)) ∧
      (ls.length = ts.length →
        planck_law_np (.array ls) (.array ts) c1 c2 n =
          .array (List.zipWith (fun l' t' => planck_law l' t' c1 c2 n) ls ts)) :=
  ⟨planck_law_np_array_scalar ls t c1 c2 n,
   planck_law_np_scalar_array l ts c1 c2 n,
   fun h => planck_law_np_array_array ls ts c1 c2 n h⟩

/-- Concrete instantiation of `planck_law_broadcasts` on two-element arrays,
covering all three broadcast configurations. -/
theorem planck_law_broadcasts_witness :
    (planck_law_np (.array [1, 2]) (.scalar 3) C1 C2 N =
        .array [planck_law 1 3 C1 C2 N, planck_law 2 3 C1 C2 N]) ∧
      (planck_law_np (.scalar 5) (.array [3, 4]) C1 C2 N =
        .array [planck_law 5 3 C1 C2 N, planck_law 5 4 C1 C2 N]) ∧
      (planck_law_np (.array [1, 2]) (.array [3, 4]) C1 C2 N =
        .array [planck_law 1 3 C1 C2 N, planck_law 2 4 C1 C2 N]) := by
  have h := planck_law_broadcasts [1, 2] [3, 4] 5 3 C1 C2 N
  exact ⟨h.1, h.2.1, h.2.2 rfl⟩

/-- Modelled from the spec: the `SpectralShape` class of `colour.colorimetry`
is not among the source files; the spec describes it as a wavelength shape
descriptor "(start, end, sampling interval)" (§4.2, §6). Wavelengths are in
nanometres and are modelled as rationals (`stop` stands for the spec's
`end`, a Lean keyword). -/
structure SpectralShape : Type where
  start : ℚ
  stop : ℚ
  interval : ℚ

/-- Modelled from the spec: `SpectralShape.range` is not among the source
files; per the spec (§3) it is the "ordered sequence of floating-point
nanometre values, strictly increasing, fixed step" from `start` to `stop`,
i.e. `start, start + interval, ...` while not exceeding `stop`; an empty
sequence when `start > stop` (§4.2 failure mode). -/
def SpectralShape.range (s : SpectralShape) : List ℚ :=
  (List.range
      (if s.start ≤ s.stop then ((s.stop - s.start) / s.interval).floor.toNat + 1
       else 0)).map
    (fun i => s.start + i * s.interval)

/-- Modelled from the spec: the `SpectralDistribution` class of
`colour.colorimetry` is not among the source files; per the spec (§3) it is
"a mapping from wavelength (key, float, unique, ascending) to a scalar
value" with a display name, modelled as an association list of
(wavelength, value) pairs plus the name (the interpolator and extrapolator
metadata play no role in the claims and are omitted). -/
structure SpectralDistribution : Type where
  data : List (ℚ × ℝ)
  name : String

/-- `sd_blackbody` from the source:

`wavelengths = shape.range()`
`return SpectralDistribution(`
`    data=dict(zip(wavelengths, planck_law(wavelengths * 1e-9, temperature, c1, c2, n))),`
`    name='...K Blackbody'.format(temperature))`

The format-string rendering of the numeric temperature cannot be computed
for a real number, so the rendered digits are passed in as `tstr` (for the
doctest temperature 5000, `tstr = "5000"`). -/
noncomputable def sd_blackbody (temperature : ℝ) (shape : SpectralShape)
    (c1 c2 n : ℝ) (tstr : String) : SpectralDistribution :=
  let wavelengths := shape.range
  { data :=
      wavelengths.zip
        ((planck_law_np
            (NPValue.mul (NPValue.array (wavelengths.map Rat.cast))
              (NPValue.scalar 1e-9))
            (NPValue.scalar temperature) c1 c2 n).toList)
    name := tstr ++ "K Blackbody" }

/-- Claim C2: the table of `sd_blackbody temperature shape` maps each
wavelength `w` of the shape's range to `planck_law (w * 1e-9) temperature`,
converting nanometres to metres before evaluating Planck's law. -/
theorem sd_blackbody_data_eq (temperature : ℝ) (shape : SpectralShape)
    (c1 c2 n : ℝ) (tstr : String) :
    (sd_blackbody temperature shape c1 c2 n tstr).data =
      shape.range.map
        (fun w : ℚ =>
          ((w, planck_law ((w : ℝ) * 1e-9) temperature c1 c2 n) : ℚ × ℝ)) := by
  unfold sd_blackbody
  have hmul :
      NPValue.mul (NPValue.array (shape.range.map Rat.cast))
          (NPValue.scalar 1e-9) =
        NPValue.array (shape.range.map (fun w : ℚ => (w : ℝ) * 1e-9)) := by
    simp [NPValue.mul, NPValue.map2, List.map_map, Function.comp]
  dsimp only
  rw [hmul, planck_law_np_array_scalar, NPValue.toList, List.map_map]
  generalize shape.range = ws
  induction ws with
  | nil => rfl
  | cons w ws ih => simpa using ih

/-- Claim C8: the display name of `sd_blackbody` is the rendered temperature
followed by `K Blackbody`. -/
theorem sd_blackbody_name_eq (temperature : ℝ) (shape : SpectralShape)
    (c1 c2 n : ℝ) (tstr : String) :
    (sd_blackbody temperature shape c1 c2 n tstr).name =
      tstr ++ "K Blackbody" := rfl

/-- Claim C9: when the shape's range is empty, `sd_blackbody` returns a
distribution with an empty table. -/
theorem sd_blackbody_empty_range (temperature : ℝ) (shape : SpectralShape)
    (c1 c2 n : ℝ) (tstr : String) (h : shape.range = []) :
    (sd_blackbody temperature shape c1 c2 n tstr).data = [] := by
  unfold sd_blackbody
  simp [h]

/-- Concrete instantiation of `sd_blackbody_empty_range` on the degenerate
shape from 1 nm down to 0 nm, whose range is empty. -/
theorem sd_blackbody_empty_range_witness :
    SpectralShape.range ⟨1, 0, 1⟩ = [] ∧
      (sd_blackbody 5000 ⟨1, 0, 1⟩ C1 C2 N "5000").data = [] := by
  have h : SpectralShape.range ⟨1, 0, 1⟩ = [] := by decide
  exact ⟨h, sd_blackbody_empty_range 5000 ⟨1, 0, 1⟩ C1 C2 N "5000" h⟩

/-- Truncated Taylor lower bound for the fractional part of the exponent
appearing in `planck_law 500e-9 5500`. -/
theorem exp_29_125_lo : (1.2611197286 : ℝ) ≤ Real.exp (29 / 125) := by
  have h := Real.sum_le_exp_of_nonneg (x := 29 / 125) (by norm_num) 8
  refine le_trans ?_ h
  simp only [Finset.sum_range_succ, Finset.sum_range_zero]
  norm_num [Nat.factorial]

/-- Truncated Taylor upper bound for the fractional part of the exponent
appearing in `planck_law 500e-9 5500`. -/
theorem exp_29_125_hi : Real.exp (29 / 125) ≤ (1.2611197290 : ℝ) := by
  have h := Real.exp_bound' (x := 29 / 125) (by norm_num) (by norm_num)
    (n := 8) (by norm_num)
  refine le_trans h ?_
  simp only [Finset.sum_range_succ, Finset.sum_range_zero]
  norm_num [Nat.factorial]

/-- Bounds on `exp (654 / 125) = exp 5.232`, the exponential appearing in
`planck_law 500e-9 5500`. -/
theorem exp_654_125_bounds :
    (187.16676 : ℝ) ≤ Real.exp (654 / 125) ∧ Real.exp (654 / 125) ≤ 187.16677 := by
  have hsplit : ((654 : ℝ) / 125) = (5 : ℕ) * 1 + 29 / 125 := by norm_num
  rw [hsplit, Real.exp_add, Real.exp_nat_mul]
  have he1 : (2.7182818283 : ℝ) < Real.exp 1 := Real.exp_one_gt_d9
  have he2 : Real.exp 1 < 2.7182818286 := Real.exp_one_lt_d9
  have hpow1 : (2.7182818283 : ℝ) ^ 5 ≤ Real.exp 1 ^ 5 := by
    apply pow_le_pow_left₀ (by norm_num) he1.le
  have hpow2 : Real.exp 1 ^ 5 ≤ (2.7182818286 : ℝ) ^ 5 := by
    apply pow_le_pow_left₀ (Real.exp_nonneg 1) he2.le
  have hfl := exp_29_125_lo
  have hfh := exp_29_125_hi
  constructor
  · calc (187.16676 : ℝ) ≤ (2.7182818283 : ℝ) ^ 5 * 1.2611197286 := by norm_num
      _ ≤ Real.exp 1 ^ 5 * Real.exp (29 / 125) := by
          apply mul_le_mul hpow1 hfl (by norm_num) (by positivity)
  · calc Real.exp 1 ^ 5 * Real.exp (29 / 125)
        ≤ (2.7182818286 : ℝ) ^ 5 * 1.2611197290 := by
          apply mul_le_mul hpow2 hfh (Real.exp_nonneg _) (by norm_num)
      _ ≤ 187.16677 := by norm_num

/-- Claim C7: `planck_law` at wavelength `500e-9` m and temperature `5500` K
with the default constants equals `2.04727019e13` within relative
tolerance `1e-6`. -/
theorem planck_law_500nm_5500K :
    |planck_law 5e-7 5500 C1 C2 N - 2.04727019e13| ≤ 1e-6 * 2.04727019e13 := by
  unfold planck_law C1 C2 N
  have harg : (1.4388e-2 : ℝ) / (1 * 5e-7 * 5500) = 654 / 125 := by norm_num
  rw [harg]
  have hcoeff :
      (3.741771e-16 : ℝ) * (1 : ℝ) ^ (-2 : ℤ) * (5e-7 : ℝ) ^ (-5 : ℤ) =
        1.19736672e16 := by
    rw [one_zpow, show ((-5 : ℤ) = -(5 : ℕ)) from rfl, zpow_neg, zpow_natCast]
    norm_num
  rw [hcoeff]
  set E := Real.exp (654 / 125) with hE
  have hE1 : (187.16676 : ℝ) ≤ E := exp_654_125_bounds.1
  have hE2 : E ≤ 187.16677 := exp_654_125_bounds.2
  have hp1 : (3.141592 : ℝ) < Real.pi := Real.pi_gt_d6
  have hp2 : Real.pi < 3.141593 := Real.pi_lt_d6
  have hEpos : (0 : ℝ) < E - 1 := by linarith
  have hzpow : (E - 1) ^ (-1 : ℤ) = (E - 1)⁻¹ := by
    rw [show ((-1 : ℤ) = -(1 : ℕ)) from rfl, zpow_neg, zpow_natCast, pow_one]
  have hv : (1.19736672e16 : ℝ) / Real.pi * (E - 1) ^ (-1 : ℤ) =
      1.19736672e16 / (Real.pi * (E - 1)) := by
    rw [hzpow, ← div_eq_mul_inv, div_div]
  rw [hv]
  have hDpos : (0 : ℝ) < Real.pi * (E - 1) := mul_pos Real.pi_pos hEpos
  have hD1 : (3.141592 : ℝ) * 186.16676 ≤ Real.pi * (E - 1) :=
    mul_le_mul hp1.le (by linarith) (by norm_num) Real.pi_pos.le
  have hD2 : Real.pi * (E - 1) ≤ (3.141593 : ℝ) * 186.16677 :=
    mul_le_mul hp2.le (by linarith) (by linarith) (by norm_num)
  have hup : (1.19736672e16 : ℝ) / (Real.pi * (E - 1)) ≤
      1.19736672e16 / (3.141592 * 186.16676) := by
    gcongr
  have hlo : (1.19736672e16 : ℝ) / (3.141593 * 186.16677) ≤
      1.19736672e16 / (Real.pi * (E - 1)) := by
    gcongr
  have hup' : (1.19736672e16 : ℝ) / (3.141592 * 186.16676) ≤
      2.04727019e13 + 1e-6 * 2.04727019e13 := by norm_num
  have hlo' : (2.04727019e13 : ℝ) - 1e-6 * 2.04727019e13 ≤
      1.19736672e16 / (3.141593 * 186.16677) := by norm_num
  rw [abs_le]
  constructor <;> linarith

end Colour
